import Mathlib

/-!
Verification development for the zapper-vscode extension.

The development shallowly embeds the status-polling and schema-validation
pipeline of the repository:

* `src/types.ts` - the zod schemas (`ServiceStatusSchema`,
  `ZapperStatusSchema`, `ZapperTasksSchema`, `ZapperProfilesSchema`,
  `ZapperStateSchema`, `ZapperConfigSchema`) become Lean parsing functions
  from a `Json` value type to `Option` results; `safeParse` failure is
  `none`.
* `src/zapperService.ts` - the command runner `executeZapCommand` and the
  five fetchers (`getZapperStatusForProject` and friends) become total
  functions over an explicit subprocess outcome type; try/catch blocks
  that swallow errors become `Option`-returning pipelines.
* `src/zapperProvider.ts` - `startPolling` / `pollStatus` / `dispose`
  become a timeline model of poll start times plus a small event-step
  machine for disposal.

`JSON.parse` of the JavaScript runtime is modelled by a fuel-based
recursive-descent parser (`Json.parse`) covering the object / array /
string / integer / literal fragment of JSON that the pipeline exchanges;
all recursion is structural so that concrete inputs evaluate inside the
kernel.
-/

set_option autoImplicit false

/-- Json values as produced by the JavaScript runtime from `JSON.parse`:
objects are kept as ordered field lists, matching insertion order of the
parsed text. -/
inductive Json where
  | null
  | bool (b : Bool)
  | num (n : Int)
  | str (s : String)
  | arr (elems : List Json)
  | obj (fields : List (String × Json))

/-- Property lookup `obj[key]` on a parsed object: later bindings shadow
earlier ones, as in a JavaScript object built left to right. -/
def jLookup : List (String × Json) → String → Option Json
  | [], _ => none
  | p :: rest, key =>
    match jLookup rest key with
    | some v => some v
    | none => if p.1 = key then some p.2 else none

/-- Whitespace handling of the JSON grammar. -/
def isWsChar (c : Char) : Bool :=
  c = ' ' || c = '\n' || c = '\t' || c = '\r'

/-- Drop leading JSON whitespace. -/
def skipWs : List Char → List Char
  | [] => []
  | c :: cs => if isWsChar c then skipWs cs else c :: cs

/-- Escape characters accepted after a backslash inside a JSON string. -/
def escChar (e : Char) : Option Char :=
  if e = 'n' then some '\n'
  else if e = 't' then some '\t'
  else if e = 'r' then some '\r'
  else if e = '"' then some '"'
  else if e = '\\' then some '\\'
  else if e = '/' then some '/'
  else none

/-- Parse the remainder of a JSON string after the opening quote; the
flag records that the previous character was a backslash. -/
def parseStringRest : Bool → List Char → Option (List Char × List Char)
  | _, [] => none
  | true, e :: cs =>
    match escChar e with
    | none => none
    | some r =>
      match parseStringRest false cs with
      | none => none
      | some (out, rest) => some (r :: out, rest)
  | false, c :: cs =>
    if c = '"' then some ([], cs)
    else if c = '\\' then
      match parseStringRest true cs with
      | none => none
      | some (out, rest) => some (out, rest)
    else
      match parseStringRest false cs with
      | none => none
      | some (out, rest) => some (c :: out, rest)

/-- Take a maximal run of decimal digits. -/
def takeDigits : List Char → List Char × List Char
  | [] => ([], [])
  | c :: cs =>
    if c.isDigit then
      let (ds, rest) := takeDigits cs
      (c :: ds, rest)
    else ([], c :: cs)

/-- Numeric value of a digit run. -/
def digitsToNat (ds : List Char) : Nat :=
  ds.foldl (fun acc c => acc * 10 + (c.toNat - 48)) 0

/-- Parse a JSON integer starting at the current position. -/
def parseNum (cs : List Char) : Option (Int × List Char) :=
  match cs with
  | '-' :: cs1 =>
    match takeDigits cs1 with
    | ([], _) => none
    | (ds, rest) => some (-(digitsToNat ds : Int), rest)
  | _ =>
    match takeDigits cs with
    | ([], _) => none
    | (ds, rest) => some ((digitsToNat ds : Int), rest)

/-- Match a literal keyword such as `null` / `true` / `false`. -/
def stripKeyword (kw : List Char) (cs : List Char) : Option (List Char) :=
  match kw, cs with
  | [], rest => some rest
  | k :: ks, c :: rest => if c = k then stripKeyword ks rest else none
  | _ :: _, [] => none

/-- Parse the element list of a JSON array after the opening bracket
(for a nonempty array), given a parser for one value. The fuel bounds
the number of elements. -/
def parseElemsWith (pv : List Char → Option (Json × List Char)) :
    Nat → List Char → Option (List Json × List Char)
  | 0, _ => none
  | n + 1, cs =>
    match pv cs with
    | none => none
    | some (v, rest) =>
      match skipWs rest with
      | ',' :: rest2 =>
        match parseElemsWith pv n rest2 with
        | none => none
        | some (vs, rest3) => some (v :: vs, rest3)
      | ']' :: rest2 => some ([v], rest2)
      | _ => none

/-- Parse the member list of a JSON object after the opening brace
(for a nonempty object), given a parser for one value. -/
def parseFieldsWith (pv : List Char → Option (Json × List Char)) :
    Nat → List Char → Option (List (String × Json) × List Char)
  | 0, _ => none
  | n + 1, cs =>
    match skipWs cs with
    | '"' :: cs1 =>
      match parseStringRest false cs1 with
      | none => none
      | some (key, rest) =>
        match skipWs rest with
        | ':' :: rest2 =>
          match pv rest2 with
          | none => none
          | some (v, rest3) =>
            match skipWs rest3 with
            | ',' :: rest4 =>
              match parseFieldsWith pv n rest4 with
              | none => none
              | some (fs, rest5) => some ((⟨key⟩, v) :: fs, rest5)
            | '\x7d' :: rest4 => some ([(⟨key⟩, v)], rest4)
            | _ => none
        | _ => none
    | _ => none

/-- Parse one JSON value; the fuel bounds nesting depth and element
counts so the recursion is structural and kernel-reducible. -/
def parseVal : Nat → List Char → Option (Json × List Char)
  | 0, _ => none
  | fuel + 1, cs =>
    match skipWs cs with
    | [] => none
    | c :: cs1 =>
      if c = '"' then
        match parseStringRest false cs1 with
        | none => none
        | some (out, rest) => some (.str ⟨out⟩, rest)
      else if c = '[' then
        match skipWs cs1 with
        | ']' :: rest => some (.arr [], rest)
        | cs2 =>
          match parseElemsWith (parseVal fuel) fuel cs2 with
          | none => none
          | some (vs, rest) => some (.arr vs, rest)
      else if c = '\x7b' then
        match skipWs cs1 with
        | '\x7d' :: rest => some (.obj [], rest)
        | cs2 =>
          match parseFieldsWith (parseVal fuel) fuel cs2 with
          | none => none
          | some (fs, rest) => some (.obj fs, rest)
      else if c = 'n' then
        match stripKeyword ['u', 'l', 'l'] cs1 with
        | some rest => some (.null, rest)
        | none => none
      else if c = 't' then
        match stripKeyword ['r', 'u', 'e'] cs1 with
        | some rest => some (.bool true, rest)
        | none => none
      else if c = 'f' then
        match stripKeyword ['a', 'l', 's', 'e'] cs1 with
        | some rest => some (.bool false, rest)
        | none => none
      else
        match parseNum (c :: cs1) with
        | none => none
        | some (n, rest) => some (.num n, rest)

/-- Model of `JSON.parse`: parse a full JSON document, requiring all
input to be consumed; `none` models the `SyntaxError` throw. -/
def Json.parse (s : String) : Option Json :=
  match parseVal (s.length + 2) s.data with
  | some (j, rest) => if skipWs rest = [] then some j else none
  | none => none

/-! ### Schemas from `src/types.ts` -/

/-- Output of `ServiceStatusSchema`: one monitored unit. The `type` field
is kept as a string because the zod enum validates three tags and the
transform rewrites the legacy one. -/
structure ServiceStatus where
  service : String
  rawName : String
  status : String
  type : String
  cwd : Option String
deriving DecidableEq, Repr

/-- Transform attached to the `type` enum in `ServiceStatusSchema`:
`t => t === 'bare_metal' ? 'native' : t`. -/
def serviceTypeTransform (t : String) : String :=
  if t = "bare_metal" then "native" else t

/-- Required string member, as `z.string()` on member `key`: a missing
member or a non-string value fails. -/
def zReqStrField (fields : List (String × Json)) (key : String) : Option String :=
  match jLookup fields key with
  | some (.str s) => some s
  | _ => none

/-- Embedding of `ServiceStatusSchema.safeParse`: required string fields
`service`, `rawName`, `status`, an enum-checked and transformed `type`,
and an optional string `cwd`. Any violation yields `none`. -/
def parseServiceStatus : Json → Option ServiceStatus
  | .obj fields =>
    match zReqStrField fields "service", zReqStrField fields "rawName",
          zReqStrField fields "status", zReqStrField fields "type" with
    | some service, some rawName, some status, some t =>
      if t = "native" || t = "bare_metal" || t = "docker" then
        match jLookup fields "cwd" with
        | none => some ⟨service, rawName, status, serviceTypeTransform t, none⟩
        | some (.str c) => some ⟨service, rawName, status, serviceTypeTransform t, some c⟩
        | some _ => none
      else none
    | _, _, _, _ => none
  | _ => none

/-- Parse every element of a JSON array with `p`; one failing element
fails the whole array, as in `z.array`. -/
def parseList {α : Type} (p : Json → Option α) : List Json → Option (List α)
  | [] => some []
  | x :: xs =>
    match p x with
    | none => none
    | some a =>
      match parseList p xs with
      | none => none
      | some as => some (a :: as)

/-- Embedding of `z.array(p)`: the value must be a JSON array. -/
def zArray {α : Type} (p : Json → Option α) : Json → Option (List α)
  | .arr es => parseList p es
  | _ => none

/-- Output of `ZapperStatusSchema`: the normalized status object. -/
structure ZapperStatus where
  bareMetal : List ServiceStatus
  docker : List ServiceStatus
deriving DecidableEq, Repr

/-- Preprocess step of `ZapperStatusSchema`: when the value is a
non-array object without a `bareMetal` member, copy the `native` member
(or, failing that, the `bare_metal` member) to `bareMetal`; the spread
appends the new binding, which shadows under `jLookup`. -/
def zapperStatusPreprocess (j : Json) : Json :=
  match j with
  | .obj fields =>
    match jLookup fields "bareMetal" with
    | some _ => .obj fields
    | none =>
      match jLookup fields "native" with
      | some v => .obj (fields ++ [("bareMetal", v)])
      | none =>
        match jLookup fields "bare_metal" with
        | some v => .obj (fields ++ [("bareMetal", v)])
        | none => .obj fields
  | _ => j

/-- Embedding of `z.array(ServiceStatusSchema).default([])` applied to
the member `key`: a missing member defaults to the empty list, a present
member must be an array of valid entries. -/
def zServiceArrayField (fields : List (String × Json)) (key : String) :
    Option (List ServiceStatus) :=
  match jLookup fields key with
  | none => some []
  | some v => zArray parseServiceStatus v

/-- Embedding of `ZapperStatusSchema.safeParse`: preprocess, then an
object with `bareMetal` and `docker` arrays of service entries. -/
def zapperStatusSchemaParse (j : Json) : Option ZapperStatus :=
  match zapperStatusPreprocess j with
  | .obj fields =>
    match zServiceArrayField fields "bareMetal", zServiceArrayField fields "docker" with
    | some bm, some dk => some ⟨bm, dk⟩
    | _, _ => none
  | _ => none

/-- Output of `TaskNameSchema`. -/
structure TaskName where
  name : String
deriving DecidableEq, Repr

/-- Embedding of `TaskNameSchema.safeParse`: an object with a string
`name`. -/
def parseTaskName : Json → Option TaskName
  | .obj fields =>
    match jLookup fields "name" with
    | some (.str n) => some ⟨n⟩
    | _ => none
  | _ => none

/-- Embedding of `ZapperTasksSchema.safeParse` (`z.array(TaskNameSchema)`). -/
def zapperTasksSchemaParse : Json → Option (List TaskName) :=
  zArray parseTaskName

/-- Embedding of `z.string()` as an element parser. -/
def parseJString : Json → Option String
  | .str s => some s
  | _ => none

/-- Embedding of `ZapperProfilesSchema.safeParse` (`z.array(z.string())`). -/
def zapperProfilesSchemaParse : Json → Option (List String) :=
  zArray parseJString

/-- Output of `ZapperStateSchema`; `activeProfile` collapses the
`undefined` and `null` cases of `z.string().optional().nullable()` to
`none`. -/
structure ZapperState where
  activeProfile : Option String
  lastUpdated : String
deriving DecidableEq, Repr

/-- Embedding of `ZapperStateSchema.safeParse`. -/
def zapperStateSchemaParse : Json → Option ZapperState
  | .obj fields =>
    match jLookup fields "lastUpdated" with
    | some (.str lu) =>
      match jLookup fields "activeProfile" with
      | none => some ⟨none, lu⟩
      | some .null => some ⟨none, lu⟩
      | some (.str s) => some ⟨some s, lu⟩
      | some _ => none
    | _ => none
  | _ => none

/-- Optional string member, as `z.string().optional()` on member `key`. -/
def zOptStrField (fields : List (String × Json)) (key : String) :
    Option (Option String) :=
  match jLookup fields key with
  | none => some none
  | some (.str s) => some (some s)
  | some _ => none

/-- Optional string-array member, as `z.array(z.string()).optional()`. -/
def zOptStrArrayField (fields : List (String × Json)) (key : String) :
    Option (Option (List String)) :=
  match jLookup fields key with
  | none => some none
  | some v =>
    match zArray parseJString v with
    | some l => some (some l)
    | none => none

/-- Output of `ProcessSchema`. -/
structure Process where
  cmd : String
  cwd : Option String
  aliases : Option (List String)
  repo : Option String
  name : String
  profiles : Option (List String)
deriving DecidableEq, Repr

/-- Embedding of `ProcessSchema.safeParse`. -/
def parseProcess : Json → Option Process
  | .obj fields =>
    match jLookup fields "cmd", jLookup fields "name" with
    | some (.str cmd), some (.str name) =>
      match zOptStrField fields "cwd", zOptStrArrayField fields "aliases",
            zOptStrField fields "repo", zOptStrArrayField fields "profiles" with
      | some cwd, some aliases, some repo, some profiles =>
        some ⟨cmd, cwd, aliases, repo, name, profiles⟩
      | _, _, _, _ => none
    | _, _ => none
  | _ => none

/-- Output of `ContainerSchema`. -/
structure Container where
  image : String
  ports : Option (List String)
  volumes : Option (List String)
  name : String
deriving DecidableEq, Repr

/-- Embedding of `ContainerSchema.safeParse`. -/
def parseContainer : Json → Option Container
  | .obj fields =>
    match jLookup fields "image", jLookup fields "name" with
    | some (.str image), some (.str name) =>
      match zOptStrArrayField fields "ports", zOptStrArrayField fields "volumes" with
      | some ports, some volumes => some ⟨image, ports, volumes, name⟩
      | _, _ => none
    | _, _ => none
  | _ => none

/-- Output of `TaskSchema` (named `ZTask` because `Task` is taken by the
Lean core library). -/
structure ZTask where
  name : String
  cmds : List String
  cwd : Option String
deriving DecidableEq, Repr

/-- Embedding of `TaskSchema.safeParse`. -/
def parseZTask : Json → Option ZTask
  | .obj fields =>
    match jLookup fields "name", jLookup fields "cmds" with
    | some (.str name), some cmdsJson =>
      match zArray parseJString cmdsJson with
      | some cmds =>
        match zOptStrField fields "cwd" with
        | some cwd => some ⟨name, cmds, cwd⟩
        | none => none
      | none => none
    | _, _ => none
  | _ => none

/-- Output of `ZapperConfigSchema`. -/
structure ZapperConfig where
  projectName : String
  projectRoot : String
  envFiles : List String
  processes : List Process
  containers : List Container
  tasks : List ZTask
deriving DecidableEq, Repr

/-- Embedding of `ZapperConfigSchema.safeParse`. -/
def zapperConfigSchemaParse : Json → Option ZapperConfig
  | .obj fields =>
    match jLookup fields "projectName", jLookup fields "projectRoot" with
    | some (.str pn), some (.str pr) =>
      match jLookup fields "envFiles", jLookup fields "processes",
            jLookup fields "containers", jLookup fields "tasks" with
      | some ef, some ps, some cs, some ts =>
        match zArray parseJString ef, zArray parseProcess ps,
              zArray parseContainer cs, zArray parseZTask ts with
        | some envFiles, some processes, some containers, some tasks =>
          some ⟨pn, pr, envFiles, processes, containers, tasks⟩
        | _, _, _, _ => none
      | _, _, _, _ => none
    | _, _ => none
  | _ => none

/-! ### Command runner from `src/zapperService.ts` (`executeZapCommand`) -/

/-- Leading-match test: the first list read off the front of the second. -/
def startsWithList : List Char → List Char → Bool
  | n :: ns, h :: hs => n = h && startsWithList ns hs
  | ns, _ => ns.isEmpty

/-- Contiguous-sublist test on character lists. -/
def hasInfix (needle : List Char) : List Char → Bool
  | [] => needle.isEmpty
  | h :: t => startsWithList needle (h :: t) || hasInfix needle t

/-- Substring test, as `String.prototype.includes`. -/
def strIncludes (hay needle : String) : Bool :=
  hasInfix needle.data hay.data

/-- Outcome of one spawned subprocess: either the `error` event fired
(launch failure) or the `close` event fired with an exit code and the
accumulated stdout / stderr text. -/
inductive ProcOutcome where
  | errored (msg : String)
  | closed (code : Int) (stdout : String) (stderr : String)

/-- Error conditions of the command runner, one per reject branch of
`executeZapCommand`. -/
inductive CmdError where
  | execNotFound (msg : String)
  | nodeNotFound (msg : String)
  | commandFailed (msg : String)
  | other (msg : String)
deriving DecidableEq, Repr

/-- Message text carried by a command runner error. -/
def CmdError.message : CmdError → String
  | .execNotFound m => m
  | .nodeNotFound m => m
  | .commandFailed m => m
  | .other m => m

/-- Static inputs of one `executeZapCommand` call that the reject
branches interpolate into their messages: whether an explicit zap path
was resolved, the zap path, the detected node executable and the `PATH`
value of the child environment. -/
structure ExecEnv where
  isExplicitPath : Bool
  zapPath : String
  nodeExecPath : String
  envPath : String

/-- Handler of the `error` event: an `ENOENT` launch failure is turned
into an executable-not-found error whose message names a remedy (check
the settings path, or install the CLI / set `zapper.zapPath`); any other
launch error is re-thrown as is. Quote characters of the original
message text are omitted. -/
def errorHandler (env : ExecEnv) (msg : String) : CmdError :=
  if strIncludes msg "ENOENT" then
    .execNotFound
      (if env.isExplicitPath then
        "Zap executable not found at path: " ++ env.zapPath ++
          ". Please check the path in settings."
      else
        "zap command not found. Please ensure zapper CLI is installed and available in PATH, or set the zapper.zapPath setting.")
  else .other msg

/-- Handler of the `close` event: exit code 0 resolves with stdout; a
stderr that reports a missing node runtime rejects with a dedicated
message; any other nonzero exit rejects with the exit code and stderr,
falling back to stdout when stderr is empty. -/
def closeHandler (env : ExecEnv) (code : Int) (stdout stderr : String) :
    Except CmdError String :=
  if code = 0 then .ok stdout
  else if strIncludes stderr "node: No such file or directory" ||
      strIncludes stderr "env: node" then
    .error (.nodeNotFound
      ("Node.js not found when executing zap. Node executable: " ++
        env.nodeExecPath ++ ", PATH: " ++ env.envPath ++ ". Error: " ++ stderr))
  else
    .error (.commandFailed
      ("Command failed with code " ++ toString code ++ ": " ++
        (if stderr = "" then stdout else stderr)))

/-- Embedding of `executeZapCommand`: settle the promise according to
which subprocess event fired. -/
def executeZapCommand (env : ExecEnv) : ProcOutcome → Except CmdError String
  | .errored msg => .error (errorHandler env msg)
  | .closed code stdout stderr => closeHandler env code stdout stderr

/-! ### Fetchers from `src/zapperService.ts` -/

/-- Embedding of `getZapperStatusForProject`: run the command, parse the
stdout as JSON, validate with `ZapperStatusSchema`; every failure is
caught and becomes `none`. -/
def getZapperStatusForProject (env : ExecEnv) (o : ProcOutcome) :
    Option ZapperStatus :=
  match executeZapCommand env o with
  | .error _ => none
  | .ok output =>
    match Json.parse output with
    | none => none
    | some raw =>
      match zapperStatusSchemaParse raw with
      | none => none
      | some d => some d

/-- Embedding of `getZapperTasksForProject`. -/
def getZapperTasksForProject (env : ExecEnv) (o : ProcOutcome) :
    Option (List TaskName) :=
  match executeZapCommand env o with
  | .error _ => none
  | .ok output =>
    match Json.parse output with
    | none => none
    | some raw =>
      match zapperTasksSchemaParse raw with
      | none => none
      | some d => some d

/-- Embedding of `getZapperProfilesForProject`. -/
def getZapperProfilesForProject (env : ExecEnv) (o : ProcOutcome) :
    Option (List String) :=
  match executeZapCommand env o with
  | .error _ => none
  | .ok output =>
    match Json.parse output with
    | none => none
    | some raw =>
      match zapperProfilesSchemaParse raw with
      | none => none
      | some d => some d

/-- Embedding of `getZapperStateForProject`. -/
def getZapperStateForProject (env : ExecEnv) (o : ProcOutcome) :
    Option ZapperState :=
  match executeZapCommand env o with
  | .error _ => none
  | .ok output =>
    match Json.parse output with
    | none => none
    | some raw =>
      match zapperStateSchemaParse raw with
      | none => none
      | some d => some d

/-- Embedding of `getZapperConfigForProject`. -/
def getZapperConfigForProject (env : ExecEnv) (o : ProcOutcome) :
    Option ZapperConfig :=
  match executeZapCommand env o with
  | .error _ => none
  | .ok output =>
    match Json.parse output with
    | none => none
    | some raw =>
      match zapperConfigSchemaParse raw with
      | none => none
      | some d => some d

/-! ### Polling loop from `src/zapperProvider.ts` -/

/-- Fixed timer period of `startPolling` (`setInterval(..., 2000)`),
in milliseconds. -/
def pollPeriodMs : Nat := 2000

/-- Start time (ms after activation) of the n-th poll that
`startPolling` causes: poll 0 is the immediate `pollStatus()` call, and
poll n+1 is the n-th interval fire. Every fire starts a poll because
`pollStatus` has no in-flight guard. -/
def pollStart : Nat → Nat
  | 0 => 0
  | n + 1 => pollPeriodMs * (n + 1)

/-- Number of poll ticks in flight at time `t` when every tick takes
`d` milliseconds: ticks started at `s` occupy the window `s ≤ t < s + d`. -/
def inFlightAt (d t : Nat) : Nat :=
  (List.range (t / pollPeriodMs + 1)).countP
    (fun n => decide (pollStart n ≤ t ∧ t < pollStart n + d))

/-- Formalization of the claimed no-overlap policy: at no time are two
poll ticks in flight simultaneously, whatever the tick duration. -/
def noOverlappingTicks : Prop :=
  ∀ d t : Nat, inFlightAt d t ≤ 1

/-- Events observable on a `ZapperProvider` after construction: interval
fires, `dispose()` calls, and manual `refresh()` calls. `startPolling`
is only invoked by the constructor, so no event re-arms the timer. -/
inductive PEvent where
  | timerFire
  | dispose
  | refresh
deriving DecidableEq, Repr

/-- Provider state relevant to the timer: whether the interval armed by
`startPolling` is still active (`clearInterval` has not run). -/
structure ProviderState where
  intervalArmed : Bool
deriving DecidableEq, Repr

/-- State transition of one event: `dispose` runs `clearInterval`; a
timer fire and a manual refresh leave the interval state unchanged. -/
def stepEvent (s : ProviderState) : PEvent → ProviderState
  | .timerFire => s
  | .dispose => ⟨false⟩
  | .refresh => s

/-- Number of timer-triggered polls over an event sequence: an interval
fire starts a poll exactly when the interval is still armed (a cleared
interval no longer fires `pollStatus`). Manual refreshes are not
timer-triggered. -/
def timerPollCount : ProviderState → List PEvent → Nat
  | _, [] => 0
  | s, e :: rest =>
    (if e = .timerFire ∧ s.intervalArmed then 1 else 0) +
      timerPollCount (stepEvent s e) rest

/-! ### Claim-level predicates and sample inputs -/

/-- Status entry object lacking one of the four required members
(`service`, `rawName`, `status`, `type`) of the expected entry shape. -/
def missingRequiredServiceField : Json → Prop
  | .obj efields =>
    jLookup efields "service" = none ∨ jLookup efields "rawName" = none ∨
      jLookup efields "status" = none ∨ jLookup efields "type" = none
  | _ => False

/-- Claimed contract of the close handler on nonzero exits: the runner
fails with an error whose message carries the exit code and the captured
stderr text, falling back to the captured stdout text when stderr is
empty. -/
def carriesExitCodeAndOutput : Prop :=
  ∀ (env : ExecEnv) (code : Int) (stdout stderr : String), code ≠ 0 →
    ∃ e : CmdError, closeHandler env code stdout stderr = .error e ∧
      strIncludes e.message (toString code) = true ∧
      (if stderr = "" then strIncludes e.message stdout = true
        else strIncludes e.message stderr = true)

/-- Message produced by the close handler at the counterexample input of
the command-failure claim. -/
def cexMsg : String :=
  "Node.js not found when executing zap. Node executable: node, PATH: p. Error: env: node"

/-- Sample execution environment for concrete evaluations. -/
def sampleEnv : ExecEnv :=
  ⟨false, "zap", "node", "p"⟩


/-! ### Helper lemmas -/

/-- Lookup over an append: bindings of the right part shadow the left. -/
theorem jLookup_append (xs ys : List (String × Json)) (key : String) :
    jLookup (xs ++ ys) key =
      match jLookup ys key with
      | some v => some v
      | none => jLookup xs key := by
  induction xs with
  | nil =>
    simp only [List.nil_append]
    cases jLookup ys key <;> simp [jLookup]
  | cons p ps ih =>
    simp only [List.cons_append, jLookup, List.append_eq]
    rw [ih]
    cases jLookup ys key <;> cases jLookup ps key <;> simp

/-- A list starts with itself followed by anything. -/
theorem startsWithList_self_append (n rest : List Char) :
    startsWithList n (n ++ rest) = true := by
  induction n with
  | nil => rfl
  | cons c cs ih => simp [startsWithList, ih]

/-- A leading match is in particular a contiguous sublist. -/
theorem hasInfix_of_startsWith (n l : List Char) (h : startsWithList n l = true) :
    hasInfix n l = true := by
  cases l with
  | nil =>
    cases n with
    | nil => rfl
    | cons c cs => simp [startsWithList] at h
  | cons c cs => simp [hasInfix, h]

/-- A contiguous sublist of the right part survives prepending. -/
theorem hasInfix_append_right (n xs ys : List Char) (h : hasInfix n ys = true) :
    hasInfix n (xs ++ ys) = true := by
  induction xs with
  | nil => simpa using h
  | cons c cs ih => simp [hasInfix, ih]

/-- `includes` holds for any substring of the right append operand. -/
theorem strIncludes_append_right (a b n : String) (h : strIncludes b n = true) :
    strIncludes (a ++ b) n = true := by
  simp only [strIncludes, String.data_append] at *
  exact hasInfix_append_right _ _ _ h

/-- A string `includes` itself as a leading substring of any extension. -/
theorem strIncludes_self_append (n rest : String) :
    strIncludes (n ++ rest) n = true := by
  simp only [strIncludes, String.data_append]
  exact hasInfix_of_startsWith _ _ (startsWithList_self_append _ _)

/-- A string `includes` itself. -/
theorem strIncludes_self (n : String) : strIncludes n n = true := by
  have h := startsWithList_self_append n.data []
  rw [List.append_nil] at h
  simpa [strIncludes] using hasInfix_of_startsWith _ _ h

/-- One invalid element fails the whole array parse. -/
theorem parseList_mem_none {α : Type} (p : Json → Option α) (es : List Json)
    (e : Json) (he : e ∈ es) (hp : p e = none) : parseList p es = none := by
  induction es with
  | nil => cases he
  | cons x xs ih =>
    rcases List.mem_cons.mp he with rfl | hmem
    · simp [parseList, hp]
    · cases hx : p x
      · simp [parseList, hx]
      · simp [parseList, hx, ih hmem]

/-- The enum guard of the `type` field pins the transformed tag. -/
theorem serviceTypeTransform_cases (t : String)
    (h : (t = "native" || t = "bare_metal" || t = "docker") = true) :
    (serviceTypeTransform t = "native" ∨ serviceTypeTransform t = "docker") ∧
      serviceTypeTransform t ≠ "bare_metal" := by
  simp only [Bool.or_eq_true, decide_eq_true_eq] at h
  rcases h with (h | h) | h <;> subst h <;> simp [serviceTypeTransform]

/-! ### Claims -/

/-- C1: for every well-formed status JSON object, parsing and validating
with the status schema yields the same normalized result whether the
native-process array is given under the canonical key `bareMetal` or
under a recognized legacy alias (`native` or `bare_metal`), and whether
an entry carries the type tag `native` or the legacy `bare_metal`. -/
theorem statusAliasTransparency (rest : List (String × Json)) (v : Json)
    (hbm : jLookup rest "bareMetal" = none)
    (hnat : jLookup rest "native" = none)
    (hleg : jLookup rest "bare_metal" = none) :
    (zapperStatusSchemaParse (.obj (rest ++ [("native", v)])) =
        zapperStatusSchemaParse (.obj (rest ++ [("bareMetal", v)])) ∧
      zapperStatusSchemaParse (.obj (rest ++ [("bare_metal", v)])) =
        zapperStatusSchemaParse (.obj (rest ++ [("bareMetal", v)]))) ∧
    ∀ efields : List (String × Json),
      parseServiceStatus (.obj (efields ++ [("type", .str "bare_metal")])) =
        parseServiceStatus (.obj (efields ++ [("type", .str "native")])) := by
  refine ⟨⟨?_, ?_⟩, ?_⟩
  · simp [zapperStatusSchemaParse, zapperStatusPreprocess, zServiceArrayField,
      jLookup_append, jLookup, hbm, hnat, hleg]
  · simp [zapperStatusSchemaParse, zapperStatusPreprocess, zServiceArrayField,
      jLookup_append, jLookup, hbm, hnat, hleg]
  · intro efields
    have e1 : ∀ (u k : String), k ≠ "type" →
        zReqStrField (efields ++ [("type", Json.str u)]) k =
          zReqStrField efields k := by
      intro u k hk
      simp [zReqStrField, jLookup_append, jLookup, Ne.symm hk]
    have e2 : ∀ u : String,
        zReqStrField (efields ++ [("type", Json.str u)]) "type" = some u := by
      intro u
      simp [zReqStrField, jLookup_append, jLookup]
    have e3 : ∀ (u k : String), k ≠ "type" →
        jLookup (efields ++ [("type", Json.str u)]) k = jLookup efields k := by
      intro u k hk
      simp [jLookup_append, jLookup, Ne.symm hk]
    simp only [parseServiceStatus,
      e1 "bare_metal" "service" (by decide), e1 "native" "service" (by decide),
      e1 "bare_metal" "rawName" (by decide), e1 "native" "rawName" (by decide),
      e1 "bare_metal" "status" (by decide), e1 "native" "status" (by decide),
      e2 "bare_metal", e2 "native",
      e3 "bare_metal" "cwd" (by decide), e3 "native" "cwd" (by decide)]
    cases zReqStrField efields "service" <;>
      cases zReqStrField efields "rawName" <;>
        cases zReqStrField efields "status" <;>
          simp [serviceTypeTransform]

/-- Witness for C1 at a concrete status object. -/
theorem statusAliasTransparencyWitness :
    zapperStatusSchemaParse (.obj ([("docker", Json.arr [])] ++ [("native", Json.arr [])])) =
      zapperStatusSchemaParse (.obj ([("docker", Json.arr [])] ++ [("bareMetal", Json.arr [])])) :=
  ((statusAliasTransparency [("docker", Json.arr [])] (Json.arr []) rfl rfl rfl).1).1

/-- C10: every service entry accepted by validation carries type exactly
`native` or `docker`; the legacy tag `bare_metal` is always rewritten to
`native`, so no validated entry carries type `bare_metal`. -/
theorem validatedServiceTypeInvariant (j : Json) (st : ServiceStatus)
    (h : parseServiceStatus j = some st) :
    (st.type = "native" ∨ st.type = "docker") ∧ st.type ≠ "bare_metal" := by
  cases j with
  | null => simp [parseServiceStatus] at h
  | bool b => simp [parseServiceStatus] at h
  | num n => simp [parseServiceStatus] at h
  | str s => simp [parseServiceStatus] at h
  | arr es => simp [parseServiceStatus] at h
  | obj fields =>
    simp only [parseServiceStatus] at h
    cases h1 : zReqStrField fields "service" with
    | none => rw [h1] at h; simp at h
    | some service =>
    cases h2 : zReqStrField fields "rawName" with
    | none => rw [h1, h2] at h; simp at h
    | some rawName =>
    cases h3 : zReqStrField fields "status" with
    | none => rw [h1, h2, h3] at h; simp at h
    | some status =>
    cases h4 : zReqStrField fields "type" with
    | none => rw [h1, h2, h3, h4] at h; simp at h
    | some t =>
    rw [h1, h2, h3, h4] at h
    simp only [] at h
    by_cases hg : (t = "native" || t = "bare_metal" || t = "docker") = true
    · rw [if_pos hg] at h
      have htr := serviceTypeTransform_cases t hg
      cases h5 : jLookup fields "cwd" with
      | none =>
        rw [h5] at h
        simp only [Option.some.injEq] at h
        rw [← h]
        exact htr
      | some jc =>
        cases jc with
        | str c =>
          rw [h5] at h
          simp only [Option.some.injEq] at h
          rw [← h]
          exact htr
        | null => rw [h5] at h; simp at h
        | bool b => rw [h5] at h; simp at h
        | num n => rw [h5] at h; simp at h
        | arr es => rw [h5] at h; simp at h
        | obj fs => rw [h5] at h; simp at h
    · rw [if_neg hg] at h
      simp at h

/-- Witness for C10 at a concrete validated entry. -/
theorem validatedServiceTypeInvariantWitness :
    (ServiceStatus.type ⟨"api", "api", "up", "native", none⟩ = "native" ∨
      ServiceStatus.type ⟨"api", "api", "up", "native", none⟩ = "docker") ∧
      ServiceStatus.type ⟨"api", "api", "up", "native", none⟩ ≠ "bare_metal" :=
  validatedServiceTypeInvariant
    (.obj [("service", .str "api"), ("rawName", .str "api"),
      ("status", .str "up"), ("type", .str "bare_metal")])
    ⟨"api", "api", "up", "native", none⟩ rfl

/-- A status entry missing a required member fails entry validation. -/
theorem parseServiceStatus_missing (e : Json) (hm : missingRequiredServiceField e) :
    parseServiceStatus e = none := by
  cases e with
  | null => simp [missingRequiredServiceField] at hm
  | bool b => simp [missingRequiredServiceField] at hm
  | num n => simp [missingRequiredServiceField] at hm
  | str s => simp [missingRequiredServiceField] at hm
  | arr es => simp [missingRequiredServiceField] at hm
  | obj fields =>
    simp only [missingRequiredServiceField] at hm
    simp only [parseServiceStatus]
    rcases hm with h | h | h | h
    · rw [show zReqStrField fields "service" = none by simp [zReqStrField, h]]
    · cases h1 : zReqStrField fields "service" with
      | none => rfl
      | some sv =>
        rw [show zReqStrField fields "rawName" = none by simp [zReqStrField, h]]
    · cases h1 : zReqStrField fields "service" with
      | none => rfl
      | some sv =>
        cases h2 : zReqStrField fields "rawName" with
        | none => rfl
        | some rn =>
          rw [show zReqStrField fields "status" = none by simp [zReqStrField, h]]
    · cases h1 : zReqStrField fields "service" with
      | none => rfl
      | some sv =>
        cases h2 : zReqStrField fields "rawName" with
        | none => rfl
        | some rn =>
          cases h3 : zReqStrField fields "status" with
          | none => rfl
          | some st =>
            rw [show zReqStrField fields "type" = none by simp [zReqStrField, h]]

/-- C4: for every JSON object missing required fields of the expected
status shape, the status fetcher returns an absent result (schema
rejection) and never a partially-populated object. -/
theorem statusFetcherRejectsMissingFields (env : ExecEnv) (s stderr : String)
    (j : Json) (fields : List (String × Json)) (es : List Json) (e : Json)
    (hparse : Json.parse s = some j)
    (hpre : zapperStatusPreprocess j = .obj fields)
    (harr : jLookup fields "bareMetal" = some (.arr es) ∨
      jLookup fields "docker" = some (.arr es))
    (hmem : e ∈ es)
    (hmiss : missingRequiredServiceField e) :
    zapperStatusSchemaParse j = none ∧
      getZapperStatusForProject env (.closed 0 s stderr) = none := by
  have hentry : parseServiceStatus e = none := parseServiceStatus_missing e hmiss
  have hz : zArray parseServiceStatus (.arr es) = none := by
    simpa [zArray] using parseList_mem_none parseServiceStatus es e hmem hentry
  have hnone : zapperStatusSchemaParse j = none := by
    have hobj : zapperStatusSchemaParse j =
        match zServiceArrayField fields "bareMetal",
              zServiceArrayField fields "docker" with
        | some bm, some dk => some ⟨bm, dk⟩
        | _, _ => none := by
      simp only [zapperStatusSchemaParse, hpre]
    rw [hobj]
    rcases harr with hb | hd
    · rw [show zServiceArrayField fields "bareMetal" = none by
        simp [zServiceArrayField, hb, hz]]
    · cases hbm : zServiceArrayField fields "bareMetal" with
      | none => rfl
      | some bm =>
        rw [show zServiceArrayField fields "docker" = none by
          simp [zServiceArrayField, hd, hz]]
  refine ⟨hnone, ?_⟩
  simp [getZapperStatusForProject, executeZapCommand, closeHandler, hparse, hnone]

/-- Witness for C4 at a concrete entry missing its `rawName` member. -/
theorem statusFetcherRejectsMissingFieldsWitness :
    zapperStatusSchemaParse
        (.obj [("bareMetal", .arr [.obj [("service", .str "api")]]),
          ("docker", .arr [])]) = none ∧
      getZapperStatusForProject sampleEnv
        (.closed 0 "\x7b\"bareMetal\":[\x7b\"service\":\"api\"\x7d],\"docker\":[]\x7d" "") =
        none :=
  statusFetcherRejectsMissingFields sampleEnv
    "\x7b\"bareMetal\":[\x7b\"service\":\"api\"\x7d],\"docker\":[]\x7d" ""
    (.obj [("bareMetal", .arr [.obj [("service", .str "api")]]), ("docker", .arr [])])
    [("bareMetal", .arr [.obj [("service", .str "api")]]), ("docker", .arr [])]
    [.obj [("service", .str "api")]]
    (.obj [("service", .str "api")])
    rfl rfl (Or.inl rfl) (List.mem_singleton.mpr rfl) (Or.inr (Or.inl rfl))

/-- C2: for every subprocess outcome that fails (launch failure, nonzero
exit, output that is not valid JSON, or JSON failing schema validation),
each fetcher (status, tasks, profiles, state, config) returns an absent
result and never propagates an exception past its boundary. -/
theorem fetchersReturnAbsentOnFailure (env : ExecEnv) :
    (∀ msg : String,
      getZapperStatusForProject env (.errored msg) = none ∧
      getZapperTasksForProject env (.errored msg) = none ∧
      getZapperProfilesForProject env (.errored msg) = none ∧
      getZapperStateForProject env (.errored msg) = none ∧
      getZapperConfigForProject env (.errored msg) = none) ∧
    (∀ (code : Int) (out err : String), code ≠ 0 →
      getZapperStatusForProject env (.closed code out err) = none ∧
      getZapperTasksForProject env (.closed code out err) = none ∧
      getZapperProfilesForProject env (.closed code out err) = none ∧
      getZapperStateForProject env (.closed code out err) = none ∧
      getZapperConfigForProject env (.closed code out err) = none) ∧
    (∀ out err : String, Json.parse out = none →
      getZapperStatusForProject env (.closed 0 out err) = none ∧
      getZapperTasksForProject env (.closed 0 out err) = none ∧
      getZapperProfilesForProject env (.closed 0 out err) = none ∧
      getZapperStateForProject env (.closed 0 out err) = none ∧
      getZapperConfigForProject env (.closed 0 out err) = none) ∧
    (∀ (out err : String) (j : Json), Json.parse out = some j →
      (zapperStatusSchemaParse j = none →
        getZapperStatusForProject env (.closed 0 out err) = none) ∧
      (zapperTasksSchemaParse j = none →
        getZapperTasksForProject env (.closed 0 out err) = none) ∧
      (zapperProfilesSchemaParse j = none →
        getZapperProfilesForProject env (.closed 0 out err) = none) ∧
      (zapperStateSchemaParse j = none →
        getZapperStateForProject env (.closed 0 out err) = none) ∧
      (zapperConfigSchemaParse j = none →
        getZapperConfigForProject env (.closed 0 out err) = none)) := by
  refine ⟨?_, ?_, ?_, ?_⟩
  · intro msg
    exact ⟨rfl, rfl, rfl, rfl, rfl⟩
  · intro code out err h
    have he : ∃ er, executeZapCommand env (.closed code out err) = .error er := by
      simp only [executeZapCommand, closeHandler, if_neg h]
      split
      · exact ⟨_, rfl⟩
      · exact ⟨_, rfl⟩
    obtain ⟨er, he⟩ := he
    refine ⟨?_, ?_, ?_, ?_, ?_⟩ <;>
      simp [getZapperStatusForProject, getZapperTasksForProject,
        getZapperProfilesForProject, getZapperStateForProject,
        getZapperConfigForProject, he]
  · intro out err h
    refine ⟨?_, ?_, ?_, ?_, ?_⟩ <;>
      simp [getZapperStatusForProject, getZapperTasksForProject,
        getZapperProfilesForProject, getZapperStateForProject,
        getZapperConfigForProject, executeZapCommand, closeHandler, h]
  · intro out err j hj
    refine ⟨?_, ?_, ?_, ?_, ?_⟩ <;> intro hs <;>
      simp [getZapperStatusForProject, getZapperTasksForProject,
        getZapperProfilesForProject, getZapperStateForProject,
        getZapperConfigForProject, executeZapCommand, closeHandler, hj, hs]

/-- Witness for C2: each failure mode evaluated at concrete inputs. -/
theorem fetchersReturnAbsentOnFailureWitness :
    getZapperStatusForProject sampleEnv (.errored "spawn zap ENOENT") = none ∧
    getZapperTasksForProject sampleEnv (.closed 1 "" "boom") = none ∧
    getZapperProfilesForProject sampleEnv (.closed 0 "not json" "") = none ∧
    getZapperStatusForProject sampleEnv (.closed 0 "[]" "") = none ∧
    getZapperTasksForProject sampleEnv (.closed 0 "[1]" "") = none ∧
    getZapperProfilesForProject sampleEnv (.closed 0 "[1]" "") = none ∧
    getZapperStateForProject sampleEnv (.closed 0 "[]" "") = none ∧
    getZapperConfigForProject sampleEnv (.closed 0 "[]" "") = none :=
  ⟨((fetchersReturnAbsentOnFailure sampleEnv).1 "spawn zap ENOENT").1,
    ((fetchersReturnAbsentOnFailure sampleEnv).2.1 1 "" "boom" (by decide)).2.1,
    ((fetchersReturnAbsentOnFailure sampleEnv).2.2.1 "not json" "" rfl).2.2.1,
    ((fetchersReturnAbsentOnFailure sampleEnv).2.2.2 "[]" "" (.arr []) rfl).1 rfl,
    ((fetchersReturnAbsentOnFailure sampleEnv).2.2.2 "[1]" "" (.arr [.num 1]) rfl).2.1 rfl,
    ((fetchersReturnAbsentOnFailure sampleEnv).2.2.2 "[1]" "" (.arr [.num 1]) rfl).2.2.1 rfl,
    ((fetchersReturnAbsentOnFailure sampleEnv).2.2.2 "[]" "" (.arr []) rfl).2.2.2.1 rfl,
    ((fetchersReturnAbsentOnFailure sampleEnv).2.2.2 "[]" "" (.arr []) rfl).2.2.2.2 rfl⟩

/-- C5 (amended): on a nonzero exit whose stderr does not report a
missing node runtime, the runner fails with a command-failed error whose
message carries the exit code and the captured stderr text, falling back
to the captured stdout text when stderr is empty; stderr values naming a
missing node runtime instead produce the dedicated node error. -/
theorem commandFailedCarriesCodeAndOutput (env : ExecEnv) (code : Int)
    (stdout stderr : String) (h0 : code ≠ 0)
    (h1 : strIncludes stderr "node: No such file or directory" = false)
    (h2 : strIncludes stderr "env: node" = false) :
    ∃ m : String, closeHandler env code stdout stderr = .error (.commandFailed m) ∧
      strIncludes m (toString code) = true ∧
      (if stderr = "" then strIncludes m stdout = true
        else strIncludes m stderr = true) := by
  refine ⟨"Command failed with code " ++ toString code ++ ": " ++
    (if stderr = "" then stdout else stderr), ?_, ?_, ?_⟩
  · simp [closeHandler, if_neg h0, h1, h2]
  · rw [String.append_assoc, String.append_assoc]
    exact strIncludes_append_right _ _ _ (strIncludes_self_append _ _)
  · by_cases hse : stderr = ""
    · simp only [hse, if_pos]
      exact strIncludes_append_right _ _ _ (strIncludes_self _)
    · simp only [if_neg hse]
      exact strIncludes_append_right _ _ _ (strIncludes_self _)

/-- Witness for C5 at a nonzero exit with empty stderr. -/
theorem commandFailedCarriesCodeAndOutputWitness :
    ∃ m : String, closeHandler sampleEnv 2 "only stdout" "" = .error (.commandFailed m) ∧
      strIncludes m (toString (2 : Int)) = true ∧
      (if ("" : String) = "" then strIncludes m "only stdout" = true
        else strIncludes m "" = true) :=
  commandFailedCarriesCodeAndOutput sampleEnv 2 "only stdout" ""
    (by decide) (by decide) (by decide)

/-- Counterexample for C5 as stated: when stderr reports a missing node
runtime, the runner rejects with a node error whose message does not
carry the exit code. -/
theorem commandFailedCounterexample :
    closeHandler sampleEnv 127 "" "env: node" = .error (.nodeNotFound cexMsg) ∧
      strIncludes cexMsg "127" = false ∧ ¬ carriesExitCodeAndOutput := by
  refine ⟨rfl, by decide, ?_⟩
  intro hcl
  obtain ⟨e, he, hcode, -⟩ := hcl sampleEnv 127 "" "env: node" (by decide)
  have hee : CmdError.nodeNotFound cexMsg = e := by
    rw [show closeHandler sampleEnv 127 "" "env: node" =
      Except.error (.nodeNotFound cexMsg) from rfl] at he
    exact Except.error.inj he
  rw [← hee] at hcode
  exact absurd hcode (by decide)

/-- C6: when the subprocess exits 0 with the documented status JSON on
stdout, the status fetcher returns exactly one native-type entry named
`api` with status `up` and zero container entries. -/
theorem statusFetcherHappyPath (env : ExecEnv) :
    getZapperStatusForProject env
      (.closed 0
        "\x7b\"bareMetal\":[\x7b\"service\":\"api\",\"rawName\":\"api\",\"status\":\"up\",\"type\":\"bare_metal\"\x7d],\"docker\":[]\x7d"
        "") =
      some ⟨[⟨"api", "api", "up", "native", none⟩], []⟩ := rfl

/-- C7: when the subprocess cannot be spawned because the executable is
not found (an `ENOENT` launch error), the command runner fails with the
executable-not-found condition whose message carries a human-readable
remediation hint, never with a bare system error. -/
theorem launchFailureGivesRemediationHint (env : ExecEnv) (msg : String)
    (h : strIncludes msg "ENOENT" = true) :
    ∃ hint : String, errorHandler env msg = .execNotFound hint ∧
      (strIncludes hint "Please check the path in settings" = true ∨
        strIncludes hint "Please ensure zapper CLI is installed" = true) := by
  cases hexp : env.isExplicitPath
  · have hred : errorHandler env msg = .execNotFound
        "zap command not found. Please ensure zapper CLI is installed and available in PATH, or set the zapper.zapPath setting." := by
      simp [errorHandler, h, hexp]
    exact ⟨_, hred, Or.inr (by decide)⟩
  · have hred : errorHandler env msg = .execNotFound
        ("Zap executable not found at path: " ++ env.zapPath ++
          ". Please check the path in settings.") := by
      simp [errorHandler, h, hexp]
    refine ⟨_, hred, Or.inl ?_⟩
    rw [String.append_assoc]
    exact strIncludes_append_right _ _ _
      (strIncludes_append_right _ _ _ (by decide))

/-- Witness for C7 at a concrete `ENOENT` launch error. -/
theorem launchFailureGivesRemediationHintWitness :
    ∃ hint : String, errorHandler sampleEnv "spawn zap ENOENT" = .execNotFound hint ∧
      (strIncludes hint "Please check the path in settings" = true ∨
        strIncludes hint "Please ensure zapper CLI is installed" = true) :=
  launchFailureGivesRemediationHint sampleEnv "spawn zap ENOENT" (by decide)

/-- C8: on activation of the polling loop, exactly one poll is performed
immediately (at time 0, and it is the only poll starting then), and every
subsequent poll is triggered by the recurring timer with fixed period
2000 ms (a couple of seconds). -/
theorem pollingScheduleSpec :
    pollStart 0 = 0 ∧
    (∀ n : Nat, pollStart (n + 1) = pollStart n + pollPeriodMs) ∧
    pollPeriodMs = 2000 ∧
    (∀ n : Nat, pollStart n = 0 ↔ n = 0) := by
  refine ⟨rfl, ?_, rfl, ?_⟩
  · intro n
    cases n with
    | zero => rfl
    | succ m =>
      simp only [pollStart, pollPeriodMs]
      ring
  · intro n
    cases n with
    | zero => simp [pollStart]
    | succ m =>
      simp only [pollStart, pollPeriodMs]
      omega

/-- C3 (amended): the implementation has no in-flight guard - every
timer fire starts a poll tick immediately, so whenever a tick takes
longer than the 2000 ms period, the next fire starts a second tick while
the first is still in flight. -/
theorem overlappingTicksWithoutGuard (d : Nat) (h : pollPeriodMs < d) :
    2 ≤ inFlightAt d pollPeriodMs := by
  have c0 : pollStart 0 ≤ pollPeriodMs ∧ pollPeriodMs < pollStart 0 + d := by
    simp only [pollStart]
    omega
  have c1 : pollStart 1 ≤ pollPeriodMs ∧ pollPeriodMs < pollStart 1 + d := by
    simp only [pollStart, pollPeriodMs]
    simp only [pollPeriodMs] at h
    omega
  have hrange : pollPeriodMs / pollPeriodMs + 1 = 2 := by
    simp [pollPeriodMs]
  simp only [inFlightAt, hrange]
  rw [show List.range 2 = [0, 1] from rfl]
  simp [List.countP_cons, c0, c1]

/-- Witness for the amended C3 at tick duration 3000 ms. -/
theorem overlappingTicksWithoutGuardWitness :
    2 ≤ inFlightAt 3000 pollPeriodMs :=
  overlappingTicksWithoutGuard 3000 (by decide)

/-- Counterexample for C3 as stated: with 2001 ms tick durations, two
ticks are in flight at the 2000 ms mark, so the no-overlap policy fails. -/
theorem noOverlapCounterexample :
    inFlightAt 2001 pollPeriodMs = 2 ∧ ¬ noOverlappingTicks := by
  refine ⟨by decide, ?_⟩
  intro hno
  have h2 := hno 2001 pollPeriodMs
  rw [show inFlightAt 2001 pollPeriodMs = 2 from by decide] at h2
  omega

/-- After disposal the interval is cleared, so a timer fire never starts
a poll again (the invariant survives every later event). -/
theorem timerPollCount_unarmed (evs : List PEvent) :
    ∀ t : ProviderState, t.intervalArmed = false → timerPollCount t evs = 0 := by
  induction evs with
  | nil => intro t ht; rfl
  | cons e rest ih =>
    intro t ht
    cases e with
    | timerFire =>
      simp only [timerPollCount, stepEvent, ht]
      simpa using ih t ht
    | dispose =>
      simp only [timerPollCount, stepEvent]
      simpa using ih ⟨false⟩ rfl
    | refresh =>
      simp only [timerPollCount, stepEvent]
      simpa using ih t ht

/-- C9: after the disposal operation runs on the polling component, the
recurring timer is stopped and no timer-triggered poll fires at any later
time, whatever events follow. -/
theorem noTimerPollAfterDisposal (s : ProviderState) (evs : List PEvent) :
    (stepEvent s .dispose).intervalArmed = false ∧
      timerPollCount (stepEvent s .dispose) evs = 0 :=
  ⟨rfl, timerPollCount_unarmed evs _ rfl⟩
